import Mathlib

/-
  Shallow embedding of the game engine of src/script.js (class CharityWaterGame).

  Modelling conventions:
  * DOM, audio and console effects are dropped; the state kept is exactly the
    mutable game state of the class: isPlaying, isPaused, score, gameTime,
    difficulty, drops, achievedMilestones, plus modalWon recording which
    game-over modal (win or lose) is currently shown (endGame's branch).
  * A drop's rendered vertical position is external input: the periodic
    updateDrops pulse receives a function pos : String -> Int giving each
    drop element's current bounding-rect top, and the game area's bottom.
  * Fresh ids produced by Date.now()/Math.random() are passed in as arguments.
  * The three setInterval callbacks become explicit step operations
    (spawn pulse, 50 ms game pulse, 1 s timer tick), each keeping the
    `if (!this.isPaused && this.isPlaying)` guard of its source callback.
  * A JavaScript TypeError thrown by startGameLoop when the difficulty key is
    absent from difficultySettings is modelled by startGameT returning the
    mutated state together with `some "TypeError"`.
-/

namespace CharityWater

/-- One entry of `this.difficultySettings` (script.js lines 20-39). -/
structure DifficultySetting where
  dropSpeed : Nat
  spawnRate : Nat
  targetScore : Nat
  name : String
deriving Repr, DecidableEq

/-- The difficulty catalog `this.difficultySettings`: easy / normal / hard
(script.js lines 20-39); any other key yields `undefined` in JS, here none. -/
def difficultySettings : String → Option DifficultySetting
  | "easy" => some ⟨3000, 1500, 15, "Easy"⟩
  | "normal" => some ⟨2000, 1000, 25, "Normal"⟩
  | "hard" => some ⟨1200, 800, 40, "Hard"⟩
  | _ => none

/-- A live drop as stored in `this.drops` (script.js lines 249-253): id and
collected flag; the DOM element is represented only through the external
position function fed to updateDrops. -/
structure Drop where
  id : String
  collected : Bool
deriving Repr, DecidableEq

/-- The mutable state of CharityWaterGame (constructor, script.js lines 7-19),
plus modalWon: which modal endGame displayed (some true = win modal,
some false = game-over modal, none = no modal shown). -/
structure GameState where
  isPlaying : Bool
  isPaused : Bool
  score : Nat
  gameTime : Nat
  difficulty : String
  drops : List Drop
  achievedMilestones : List Nat
  modalWon : Option Bool
deriving Repr, DecidableEq

/-- `this.milestones` (script.js line 42). -/
def milestones : List Nat := [10, 20, 30]

/-- The forEach body of checkMilestones (script.js lines 333-340) over a list
of thresholds: returns (newly shown milestones in traversal order, updated
achievedMilestones array). -/
def checkMilestonesAux (score : Nat) : List Nat → List Nat → List Nat × List Nat
  | [], achieved => ([], achieved)
  | m :: ms, achieved =>
    if m ≤ score ∧ m ∉ achieved then
      (m :: (checkMilestonesAux score ms (achieved ++ [m])).1,
       (checkMilestonesAux score ms (achieved ++ [m])).2)
    else
      checkMilestonesAux score ms achieved

/-- checkMilestones (script.js lines 333-340): for each configured milestone
with score >= milestone not yet in achievedMilestones, push it and show it. -/
def checkMilestones (score : Nat) (achieved : List Nat) : List Nat × List Nat :=
  checkMilestonesAux score milestones achieved

/-- resetGame (script.js lines 179-196): score, gameTime, achievedMilestones
and drops are cleared; intervals and DOM are outside the model. -/
def resetGame (s : GameState) : GameState :=
  { s with score := 0, gameTime := 0, achievedMilestones := [], drops := [] }

/-- startGame (script.js lines 142-177) including the TypeError that
startGameLoop (lines 198-206) throws when `difficultySettings[difficulty]` is
undefined: `settings.spawnRate` on line 206 is read from undefined.  The
returned pair is (object state after the call, thrown error if any). -/
def startGameT (s : GameState) : GameState × Option String :=
  if s.isPlaying then (s, none)
  else
    let s1 := { resetGame s with isPlaying := true, isPaused := false }
    match difficultySettings s1.difficulty with
    | none => (s1, some "TypeError")
    | some _ => (s1, none)

/-- The state after a startGame call (thrown error discarded). -/
def startGame (s : GameState) : GameState :=
  (startGameT s).1

/-- endGame (script.js lines 367-391): stops play and shows the win or the
game-over modal according to `won`. -/
def endGame (won : Bool) (s : GameState) : GameState :=
  { s with isPlaying := false, modalWon := some won }

/-- checkWinCondition (script.js lines 360-365): reads
`difficultySettings[this.difficulty].targetScore` and calls endGame(true) when
score >= targetScore.  The none branch is unreachable from a running session
(startGameLoop already threw); modelled as the identity. -/
def checkWinCondition (s : GameState) : GameState :=
  match difficultySettings s.difficulty with
  | none => s
  | some cfg => if cfg.targetScore ≤ s.score then endGame true s else s

/-- togglePause (script.js lines 436-457): early return when not playing,
otherwise flips isPaused (animation play-state changes are DOM-only). -/
def togglePause (s : GameState) : GameState :=
  if s.isPlaying then { s with isPaused := !s.isPaused } else s

/-- The body of the 1-second timer interval set by startTimer (script.js
lines 217-224): gameTime advances only while playing and not paused. -/
def timerTick (s : GameState) : GameState :=
  if !s.isPaused && s.isPlaying then { s with gameTime := s.gameTime + 1 } else s

/-- spawnDrop (script.js lines 226-256): pushes a new uncollected drop with
the given fresh id onto `this.drops`. -/
def spawnDrop (id : String) (s : GameState) : GameState :=
  { s with drops := s.drops ++ [{ id := id, collected := false }] }

/-- updateDrops (script.js lines 316-331): keeps exactly the drops that are
not collected and whose rendered top (pos) has not passed the game area's
bottom; `pos id > bottom` drops are removed from the array. -/
def updateDrops (pos : String → Int) (bottom : Int) (s : GameState) : GameState :=
  { s with drops := s.drops.filter fun d => !d.collected && decide (pos d.id ≤ bottom) }

/-- The body of the 50 ms game interval set by startGameLoop (script.js
lines 209-214): when playing and not paused, run updateDrops then
checkWinCondition. -/
def gamePulse (pos : String → Int) (bottom : Int) (s : GameState) : GameState :=
  if !s.isPaused && s.isPlaying then checkWinCondition (updateDrops pos bottom s) else s

/-- The spawn interval body (script.js lines 202-206): spawn a drop only when
playing and not paused. -/
def spawnPulse (id : String) (s : GameState) : GameState :=
  if !s.isPaused && s.isPlaying then spawnDrop id s else s

/-- Helper for collectDrop: findIndex by id on `this.drops`, early return
(none) when absent or when `drop.collected` is already true, otherwise mark
the first matching entry collected (script.js lines 267-281). -/
def collectFirst (dropId : String) : List Drop → Option (List Drop)
  | [] => none
  | d :: rest =>
    if d.id = dropId then
      if d.collected then none else some ({ d with collected := true } :: rest)
    else
      (collectFirst dropId rest).map (d :: ·)

/-- collectDrop (script.js lines 258-314): on a successful collection the
score is incremented and checkMilestones runs on the new score; on the
not-found and already-collected paths the call returns with no state change.
The 300 ms deferred element/array cleanup is the separate dropCleanup step. -/
def collectDrop (dropId : String) (s : GameState) : GameState :=
  match collectFirst dropId s.drops with
  | none => s
  | some newDrops =>
    { s with drops := newDrops, score := s.score + 1,
             achievedMilestones := (checkMilestones (s.score + 1) s.achievedMilestones).2 }

/-- Removes the first entry with the given id (findIndex + splice). -/
def removeFirst (dropId : String) : List Drop → List Drop
  | [] => []
  | d :: rest => if d.id = dropId then rest else d :: removeFirst dropId rest

/-- The setTimeout body scheduled by collectDrop (script.js lines 302-311):
300 ms later the drop element is removed and the entry spliced out of
`this.drops`. -/
def dropCleanup (dropId : String) (s : GameState) : GameState :=
  { s with drops := removeFirst dropId s.drops }

/-- An event of a running page: a user action (start button, pause button,
drop click) or one of the three interval callbacks, or the deferred cleanup
scheduled by collectDrop. -/
inductive Op where
  | start : Op
  | toggle : Op
  | collect : String → Op
  | spawnP : String → Op
  | pulse : (String → Int) → Int → Op
  | tick : Op
  | cleanup : String → Op

/-- Whether the event is one of the two user control buttons (start/pause);
the rest are internally scheduled callbacks or in-game drop clicks. -/
def Op.isUserCtl : Op → Bool
  | .start => true
  | .toggle => true
  | _ => false

/-- One event applied to the game state. -/
def step : Op → GameState → GameState
  | .start, s => startGame s
  | .toggle, s => togglePause s
  | .collect id, s => collectDrop id s
  | .spawnP id, s => spawnPulse id s
  | .pulse pos bottom, s => gamePulse pos bottom s
  | .tick, s => timerTick s
  | .cleanup id, s => dropCleanup id s

/-- A sequence of events applied in order. -/
def runSteps : List Op → GameState → GameState
  | [], s => s
  | op :: ops, s => runSteps ops (step op s)

/-- The game state together with the per-session history of resolved drops:
ids successfully collected and ids removed by the fallen-past-bottom branch of
updateDrops.  The real component always evolves by `step`; the logs are
bookkeeping that records which outcome each drop reached. -/
structure HState where
  real : GameState
  collectedLog : List String
  expiredLog : List String

/-- Instrumented step: the real state moves by `step`; a successful collect
appends its id to collectedLog, the expiry branch of a game pulse appends the
removed ids to expiredLog, and a (re)start opens a new session with fresh
logs. -/
def stepH (op : Op) (h : HState) : HState :=
  { real := step op h.real
    collectedLog :=
      match op with
      | .start => if h.real.isPlaying then h.collectedLog else []
      | .collect id =>
        if (collectFirst id h.real.drops).isSome then h.collectedLog ++ [id]
        else h.collectedLog
      | _ => h.collectedLog
    expiredLog :=
      match op with
      | .start => if h.real.isPlaying then h.expiredLog else []
      | .pulse pos bottom =>
        if !h.real.isPaused && h.real.isPlaying then
          h.expiredLog ++
            (h.real.drops.filter fun d => !d.collected && decide (bottom < pos d.id)).map Drop.id
        else h.expiredLog
      | _ => h.expiredLog }

/-- A spawned id must be fresh: never seen among the live drops nor among the
ids already resolved in this session (spawnDrop draws it from Date.now and
Math.random). -/
def freshOk : Op → HState → Bool
  | .spawnP id, h =>
    decide (id ∉ h.real.drops.map Drop.id)
      && decide (id ∉ h.collectedLog) && decide (id ∉ h.expiredLog)
  | _, _ => true

/-- A trace is valid when every spawn uses a fresh id at its point of use. -/
def validTrace : HState → List Op → Bool
  | _, [] => true
  | h, op :: ops => freshOk op h && validTrace (stepH op h) ops

/-- Run of the instrumented semantics. -/
def runH : List Op → HState → HState
  | [], h => h
  | op :: ops, h => runH ops (stepH op h)

/-- The state of a freshly constructed CharityWaterGame object
(constructor, script.js lines 7-19). -/
def initState : GameState :=
  { isPlaying := false, isPaused := false, score := 0, gameTime := 0,
    difficulty := "normal", drops := [], achievedMilestones := [], modalWon := none }

/-- Initial instrumented state: fresh object, empty history. -/
def initH : HState := { real := initState, collectedLog := [], expiredLog := [] }

/-- A small running state with one live uncollected drop, used by concrete
witnesses. -/
def oneDropState : GameState :=
  { isPlaying := true, isPaused := false, score := 0, gameTime := 2,
    difficulty := "normal", drops := [{ id := "d", collected := false }],
    achievedMilestones := [], modalWon := none }

/-- Repeated milestone evaluations: one batch of newly shown milestones per
score in the sequence, threading achievedMilestones between calls. -/
def runEvals : List Nat → List Nat → List (List Nat)
  | [], _ => []
  | sc :: rest, ach =>
    (checkMilestones sc ach).1 :: runEvals rest (checkMilestones sc ach).2

/-! Lemmas about checkMilestones. -/

theorem checkMilestonesAux_snd (sc : Nat) (ms : List Nat) :
    ∀ ach, (checkMilestonesAux sc ms ach).2 = ach ++ (checkMilestonesAux sc ms ach).1 := by
  induction ms with
  | nil => intro ach; simp [checkMilestonesAux]
  | cons m ms ih =>
    intro ach
    by_cases h : m ≤ sc ∧ m ∉ ach
    · simp only [checkMilestonesAux, if_pos h]
      rw [ih (ach ++ [m])]
      simp
    · simp only [checkMilestonesAux, if_neg h]
      exact ih ach

theorem checkMilestonesAux_fst_not_mem (sc : Nat) (ms : List Nat) :
    ∀ ach, ∀ x ∈ (checkMilestonesAux sc ms ach).1, x ∉ ach := by
  induction ms with
  | nil => intro ach x hx; simp [checkMilestonesAux] at hx
  | cons m ms ih =>
    intro ach x hx
    by_cases h : m ≤ sc ∧ m ∉ ach
    · simp only [checkMilestonesAux, if_pos h] at hx
      rcases List.mem_cons.1 hx with rfl | hx'
      · exact h.2
      · intro hmem
        exact ih (ach ++ [m]) x hx' (by simp [hmem])
    · simp only [checkMilestonesAux, if_neg h] at hx
      exact ih ach x hx

theorem checkMilestonesAux_fst_nodup (sc : Nat) (ms : List Nat) :
    ∀ ach, (checkMilestonesAux sc ms ach).1.Nodup := by
  induction ms with
  | nil => intro ach; simp [checkMilestonesAux]
  | cons m ms ih =>
    intro ach
    by_cases h : m ≤ sc ∧ m ∉ ach
    · simp only [checkMilestonesAux, if_pos h]
      refine List.nodup_cons.2 ⟨?_, ih (ach ++ [m])⟩
      intro hmem
      exact checkMilestonesAux_fst_not_mem sc ms (ach ++ [m]) m hmem (by simp)
    · simp only [checkMilestonesAux, if_neg h]
      exact ih ach

theorem checkMilestonesAux_mem_snd (sc : Nat) (ms : List Nat) (m : Nat) (hle : m ≤ sc) :
    ∀ ach, m ∈ ms → m ∈ (checkMilestonesAux sc ms ach).2 := by
  induction ms with
  | nil => intro ach h; cases h
  | cons m0 ms ih =>
    intro ach hm
    by_cases h : m0 ≤ sc ∧ m0 ∉ ach
    · simp only [checkMilestonesAux, if_pos h]
      rcases List.mem_cons.1 hm with rfl | hm'
      · rw [checkMilestonesAux_snd]; simp
      · exact ih (ach ++ [m0]) hm'
    · simp only [checkMilestonesAux, if_neg h]
      rcases List.mem_cons.1 hm with rfl | hm'
      · have hmem : m ∈ ach := by
          by_contra hno
          exact h ⟨hle, hno⟩
        rw [checkMilestonesAux_snd]
        exact List.mem_append_left _ hmem
      · exact ih ach hm'

theorem checkMilestonesAux_noop (sc : Nat) (ms : List Nat) :
    ∀ ach, (∀ m ∈ ms, m ≤ sc → m ∈ ach) → checkMilestonesAux sc ms ach = ([], ach) := by
  induction ms with
  | nil => intro ach _; rfl
  | cons m0 ms ih =>
    intro ach hach
    have h : ¬(m0 ≤ sc ∧ m0 ∉ ach) := by
      rintro ⟨h1, h2⟩
      exact h2 (hach m0 (by simp) h1)
    simp only [checkMilestonesAux, if_neg h]
    exact ih ach fun m hm => hach m (by simp [hm])

theorem runEvals_join_nodup (scores : List Nat) :
    ∀ ach, (runEvals scores ach).flatten.Nodup ∧ ∀ x ∈ (runEvals scores ach).flatten, x ∉ ach := by
  induction scores with
  | nil => intro ach; simp [runEvals]
  | cons sc rest ih =>
    intro ach
    have hb := checkMilestonesAux_fst_nodup sc milestones ach
    have hbm := checkMilestonesAux_fst_not_mem sc milestones ach
    have hrest := ih (checkMilestones sc ach).2
    have hsnd : (checkMilestones sc ach).2 = ach ++ (checkMilestones sc ach).1 :=
      checkMilestonesAux_snd sc milestones ach
    constructor
    · simp only [runEvals, List.flatten]
      refine List.nodup_append.2 ⟨hb, hrest.1, ?_⟩
      intro x hx hx'
      have hnot := hrest.2 x hx'
      rw [hsnd] at hnot
      exact hnot (List.mem_append_right _ hx)
    · simp only [runEvals, List.flatten]
      intro x hx
      rcases List.mem_append.1 hx with hx' | hx'
      · exact hbm x hx'
      · have hnot := hrest.2 x hx'
        rw [hsnd] at hnot
        intro hmem
        exact hnot (List.mem_append_left _ hmem)

/-- Claim C5: repeated milestone evaluations with non-decreasing scores never
report the same threshold twice, re-evaluating at a lower or equal score is a
no-op, and with thresholds [10, 20, 30] the score sequence 5, 10, 15, 25, 30
yields the batches [], [10], [], [20], [30] in ascending order. -/
theorem milestones_reported_once_and_sequence :
    (∀ scores : List Nat, List.Chain' (fun a b => a ≤ b) scores →
        (runEvals scores []).flatten.Nodup) ∧
    (∀ (ach : List Nat) (sc sc' : Nat), sc' ≤ sc →
        checkMilestones sc' (checkMilestones sc ach).2 = ([], (checkMilestones sc ach).2)) ∧
    runEvals [5, 10, 15, 25, 30] [] = [[], [10], [], [20], [30]] := by
  refine ⟨fun scores _ => (runEvals_join_nodup scores []).1, ?_, by decide⟩
  intro ach sc sc' hle
  exact checkMilestonesAux_noop sc' milestones _ fun m hm hm' =>
    checkMilestonesAux_mem_snd sc milestones m (le_trans hm' hle) ach hm

/-- Witness for C5 at concrete inputs. -/
theorem milestones_reported_once_witness :
    (runEvals [5, 10, 15, 25, 30] []).flatten.Nodup ∧
    checkMilestones 7 (checkMilestones 12 []).2 = ([], (checkMilestones 12 []).2) :=
  ⟨milestones_reported_once_and_sequence.1 [5, 10, 15, 25, 30]
      (by simp [List.chain'_cons, List.chain'_singleton]),
   milestones_reported_once_and_sequence.2.1 [] 12 7 (by decide)⟩

/-! Lemmas about collectFirst and collectDrop. -/

theorem collectFirst_again (dropId : String) :
    ∀ l l', collectFirst dropId l = some l' → collectFirst dropId l' = none := by
  intro l
  induction l with
  | nil => intro l' h; simp [collectFirst] at h
  | cons d rest ih =>
    intro l' h
    by_cases hid : d.id = dropId
    · by_cases hc : d.collected = true
      · simp [collectFirst, hid, hc] at h
      · have hcf : d.collected = false := by simpa using hc
        simp [collectFirst, if_pos hid, hcf] at h
        subst h
        simp [collectFirst, hid]
    · simp only [collectFirst, if_neg hid] at h
      cases hrec : collectFirst dropId rest with
      | none => simp [hrec] at h
      | some r' =>
        simp only [hrec, Option.map_some', Option.some.injEq] at h
        subst h
        simp only [collectFirst, if_neg hid, ih r' hrec, Option.map_none']

theorem collectFirst_map_id (dropId : String) :
    ∀ l l', collectFirst dropId l = some l' → l'.map Drop.id = l.map Drop.id := by
  intro l
  induction l with
  | nil => intro l' h; simp [collectFirst] at h
  | cons d rest ih =>
    intro l' h
    by_cases hid : d.id = dropId
    · by_cases hc : d.collected = true
      · simp [collectFirst, hid, hc] at h
      · have hcf : d.collected = false := by simpa using hc
        simp [collectFirst, if_pos hid, hcf] at h
        subst h
        simp
    · simp only [collectFirst, if_neg hid] at h
      cases hrec : collectFirst dropId rest with
      | none => simp [hrec] at h
      | some r' =>
        simp only [hrec, Option.map_some', Option.some.injEq] at h
        subst h
        simp [ih r' hrec]

theorem collectFirst_exists_uncollected (dropId : String) :
    ∀ l l', collectFirst dropId l = some l' →
      ∃ d, d ∈ l ∧ d.id = dropId ∧ d.collected = false := by
  intro l
  induction l with
  | nil => intro l' h; simp [collectFirst] at h
  | cons d rest ih =>
    intro l' h
    by_cases hid : d.id = dropId
    · by_cases hc : d.collected = true
      · simp [collectFirst, hid, hc] at h
      · exact ⟨d, by simp, hid, by simpa using hc⟩
    · simp only [collectFirst, if_neg hid] at h
      cases hrec : collectFirst dropId rest with
      | none => simp [hrec] at h
      | some r' =>
        obtain ⟨e, he, he1, he2⟩ := ih r' hrec
        exact ⟨e, by simp [he], he1, he2⟩

theorem collectFirst_mem_uncollected (dropId : String) :
    ∀ l l', (l.map Drop.id).Nodup → collectFirst dropId l = some l' →
      ∀ d' ∈ l', d'.collected = false → d' ∈ l ∧ d'.id ≠ dropId := by
  intro l
  induction l with
  | nil => intro l' _ h; simp [collectFirst] at h
  | cons d rest ih =>
    intro l' hnd h d' hd' hun
    have hndr : (rest.map Drop.id).Nodup := (List.nodup_cons.1 (by simpa using hnd)).2
    have hhead : d.id ∉ rest.map Drop.id := (List.nodup_cons.1 (by simpa using hnd)).1
    by_cases hid : d.id = dropId
    · by_cases hc : d.collected = true
      · simp [collectFirst, hid, hc] at h
      · have hcf : d.collected = false := by simpa using hc
        simp [collectFirst, if_pos hid, hcf] at h
        subst h
        rcases List.mem_cons.1 hd' with rfl | hmem
        · simp at hun
        · refine ⟨by simp [hmem], ?_⟩
          intro heq
          exact hhead (by rw [hid, ← heq]; exact List.mem_map.2 ⟨d', hmem, rfl⟩)
    · simp only [collectFirst, if_neg hid] at h
      cases hrec : collectFirst dropId rest with
      | none => simp [hrec] at h
      | some r' =>
        simp only [hrec, Option.map_some', Option.some.injEq] at h
        subst h
        rcases List.mem_cons.1 hd' with rfl | hmem
        · exact ⟨by simp, hid⟩
        · obtain ⟨h1, h2⟩ := ih r' hndr hrec d' hmem hun
          exact ⟨by simp [h1], h2⟩

theorem collectDrop_of_none (dropId : String) (s : GameState)
    (h : collectFirst dropId s.drops = none) : collectDrop dropId s = s := by
  unfold collectDrop
  rw [h]

theorem collectDrop_of_some (dropId : String) (s : GameState) (l' : List Drop)
    (h : collectFirst dropId s.drops = some l') :
    collectDrop dropId s =
      { s with drops := l', score := s.score + 1,
               achievedMilestones := (checkMilestones (s.score + 1) s.achievedMilestones).2 } := by
  unfold collectDrop
  rw [h]

theorem collectDrop_isPlaying (dropId : String) (s : GameState) :
    (collectDrop dropId s).isPlaying = s.isPlaying := by
  unfold collectDrop
  cases collectFirst dropId s.drops <;> rfl

theorem collectDrop_isPaused (dropId : String) (s : GameState) :
    (collectDrop dropId s).isPaused = s.isPaused := by
  unfold collectDrop
  cases collectFirst dropId s.drops <;> rfl

theorem collectDrop_difficulty (dropId : String) (s : GameState) :
    (collectDrop dropId s).difficulty = s.difficulty := by
  unfold collectDrop
  cases collectFirst dropId s.drops <;> rfl

theorem collectDrop_modalWon (dropId : String) (s : GameState) :
    (collectDrop dropId s).modalWon = s.modalWon := by
  unfold collectDrop
  cases collectFirst dropId s.drops <;> rfl

theorem collectDrop_gameTime (dropId : String) (s : GameState) :
    (collectDrop dropId s).gameTime = s.gameTime := by
  unfold collectDrop
  cases collectFirst dropId s.drops <;> rfl

/-- Claim C3: if a collectDrop call on an id succeeds, it increments the score
by exactly one; a second call with the same id is a no-op that changes nothing,
and it fails on the already-collected branch (the id is still present in the
drops array), so across the two calls the score increments exactly once. -/
theorem collect_twice_scores_once (s : GameState) (dropId : String) (l' : List Drop)
    (h : collectFirst dropId s.drops = some l') :
    (collectDrop dropId s).score = s.score + 1 ∧
    collectDrop dropId (collectDrop dropId s) = collectDrop dropId s ∧
    (collectDrop dropId (collectDrop dropId s)).score = s.score + 1 ∧
    dropId ∈ (collectDrop dropId s).drops.map Drop.id := by
  have h1 := collectDrop_of_some dropId s l' h
  have h2 : collectFirst dropId (collectDrop dropId s).drops = none := by
    rw [h1]
    exact collectFirst_again dropId s.drops l' h
  have h3 : collectDrop dropId (collectDrop dropId s) = collectDrop dropId s :=
    collectDrop_of_none dropId _ h2
  refine ⟨by rw [h1], h3, by rw [h3, h1], ?_⟩
  rw [h1]
  obtain ⟨d, hd, hdid, _⟩ := collectFirst_exists_uncollected dropId s.drops l' h
  have : d.id ∈ l'.map Drop.id := by
    rw [collectFirst_map_id dropId s.drops l' h]
    exact List.mem_map.2 ⟨d, hd, rfl⟩
  rwa [hdid] at this

/-- Witness for C3: a concrete two-call run on a one-drop state. -/
theorem collect_twice_scores_once_witness :
    (collectDrop "d" oneDropState).score = oneDropState.score + 1 ∧
    collectDrop "d" (collectDrop "d" oneDropState) = collectDrop "d" oneDropState ∧
    (collectDrop "d" (collectDrop "d" oneDropState)).score = oneDropState.score + 1 ∧
    "d" ∈ (collectDrop "d" oneDropState).drops.map Drop.id :=
  collect_twice_scores_once oneDropState "d" [{ id := "d", collected := true }] (by decide)

/-! Field lemmas for updateDrops, checkWinCondition, endGame. -/

theorem updateDrops_score (pos : String → Int) (bottom : Int) (s : GameState) :
    (updateDrops pos bottom s).score = s.score := rfl

theorem updateDrops_difficulty (pos : String → Int) (bottom : Int) (s : GameState) :
    (updateDrops pos bottom s).difficulty = s.difficulty := rfl

theorem checkWinCondition_of_win (s : GameState) (cfg : DifficultySetting)
    (hcfg : difficultySettings s.difficulty = some cfg)
    (hwin : cfg.targetScore ≤ s.score) : checkWinCondition s = endGame true s := by
  unfold checkWinCondition
  rw [hcfg]
  simp [hwin]

theorem checkWinCondition_of_not_win (s : GameState) (cfg : DifficultySetting)
    (hcfg : difficultySettings s.difficulty = some cfg)
    (hno : ¬cfg.targetScore ≤ s.score) : checkWinCondition s = s := by
  unfold checkWinCondition
  rw [hcfg]
  simp [hno]

theorem checkWinCondition_score (s : GameState) :
    (checkWinCondition s).score = s.score := by
  unfold checkWinCondition
  cases difficultySettings s.difficulty with
  | none => rfl
  | some cfg => dsimp only; split <;> rfl

theorem checkWinCondition_drops (s : GameState) :
    (checkWinCondition s).drops = s.drops := by
  unfold checkWinCondition
  cases difficultySettings s.difficulty with
  | none => rfl
  | some cfg => dsimp only; split <;> rfl

theorem checkWinCondition_gameTime (s : GameState) :
    (checkWinCondition s).gameTime = s.gameTime := by
  unfold checkWinCondition
  cases difficultySettings s.difficulty with
  | none => rfl
  | some cfg => dsimp only; split <;> rfl

/-- Claim C6: the pause/resume entry point (togglePause) called while the
session is not playing, and startGame called while it is already playing,
return with the whole state unchanged and no error thrown. -/
theorem pause_resume_start_noops :
    (∀ s : GameState, s.isPlaying = false → togglePause s = s) ∧
    (∀ s : GameState, s.isPlaying = true → startGameT s = (s, none)) := by
  constructor
  · intro s h
    simp [togglePause, h]
  · intro s h
    simp [startGameT, h]

/-- Witness for C6 at concrete states. -/
theorem pause_resume_start_noops_witness :
    togglePause initState = initState ∧ startGameT oneDropState = (oneDropState, none) :=
  ⟨pause_resume_start_noops.1 initState rfl, pause_resume_start_noops.2 oneDropState rfl⟩

/-- Claim C7: starting while not playing (in particular after a session has
Ended) resets score, drops, achieved milestones and elapsed time to their
zero values before the new session is marked playing. -/
theorem start_after_ended_resets (s : GameState) (h : s.isPlaying = false) :
    (startGameT s).1.score = 0 ∧ (startGameT s).1.drops = [] ∧
    (startGameT s).1.achievedMilestones = [] ∧ (startGameT s).1.gameTime = 0 ∧
    (startGameT s).1.isPlaying = true ∧ (startGameT s).1.isPaused = false := by
  simp only [startGameT, h, Bool.false_eq_true, if_false]
  cases hd : difficultySettings (resetGame s).difficulty <;> simp [resetGame]

/-- The ended state used by the C7 witness: a finished winning session. -/
def endedState : GameState :=
  { isPlaying := false, isPaused := false, score := 25, gameTime := 40,
    difficulty := "normal", drops := [{ id := "z", collected := true }],
    achievedMilestones := [10, 20], modalWon := some true }

/-- Witness for C7 at a concrete ended state. -/
theorem start_after_ended_resets_witness :
    (startGameT endedState).1.score = 0 ∧ (startGameT endedState).1.drops = [] ∧
    (startGameT endedState).1.achievedMilestones = [] ∧
    (startGameT endedState).1.gameTime = 0 ∧
    (startGameT endedState).1.isPlaying = true ∧
    (startGameT endedState).1.isPaused = false :=
  start_after_ended_resets endedState rfl

/-- An idle state carrying a difficulty key absent from the catalog. -/
def unknownKeyState : GameState :=
  { isPlaying := false, isPaused := false, score := 7, gameTime := 3,
    difficulty := "ultra", drops := [{ id := "x", collected := false }],
    achievedMilestones := [10], modalWon := some true }

/-- Claim C8 counterexample: starting with the absent key "ultra" does not
leave the session Idle and unchanged: startGame resets the state, marks it
playing, and then startGameLoop throws a TypeError reading
`difficultySettings[difficulty].spawnRate` of undefined. -/
theorem startGame_unknownKey_cex :
    difficultySettings "ultra" = none ∧
    (startGameT unknownKeyState).2 = some "TypeError" ∧
    (startGameT unknownKeyState).1.isPlaying = true ∧
    (startGameT unknownKeyState).1 ≠ unknownKeyState := by
  refine ⟨rfl, rfl, rfl, ?_⟩
  decide

/-- Claim C8 amended: the catalog lookup is a pure function returning nothing
for an absent key, but startGame does not fail cleanly with UnknownDifficulty:
called while not playing with an absent key it resets the state, sets
isPlaying, and then throws a TypeError from startGameLoop, leaving the
session mutated and marked playing. -/
theorem startGame_unknownKey_throws (s : GameState) (h1 : s.isPlaying = false)
    (h2 : difficultySettings s.difficulty = none) :
    (startGameT s).2 = some "TypeError" ∧
    (startGameT s).1.isPlaying = true ∧
    (startGameT s).1.score = 0 ∧ (startGameT s).1.drops = [] ∧
    (startGameT s).1.gameTime = 0 ∧ (startGameT s).1.achievedMilestones = [] := by
  have hd : difficultySettings (resetGame s).difficulty = none := h2
  simp only [startGameT, h1, Bool.false_eq_true, if_false, hd]
  simp [resetGame]

/-- Witness for C8's amended theorem at the concrete unknown-key state. -/
theorem startGame_unknownKey_throws_witness :
    (startGameT unknownKeyState).2 = some "TypeError" ∧
    (startGameT unknownKeyState).1.isPlaying = true ∧
    (startGameT unknownKeyState).1.score = 0 ∧
    (startGameT unknownKeyState).1.drops = [] ∧
    (startGameT unknownKeyState).1.gameTime = 0 ∧
    (startGameT unknownKeyState).1.achievedMilestones = [] :=
  startGame_unknownKey_throws unknownKeyState rfl rfl

/-- A running normal-difficulty session one collect away from the target. -/
def nearWinState : GameState :=
  { isPlaying := true, isPaused := false, score := 24, gameTime := 7,
    difficulty := "normal", drops := [{ id := "d", collected := false }],
    achievedMilestones := [10, 20], modalWon := none }

/-- Claim C1 counterexample: on normal difficulty (target 25) the collectDrop
call that raises the score from 24 to 25 returns with the session still
playing and no modal shown: the transition to Ended does not happen within
the collectDrop call. -/
theorem collect_win_not_in_call_cex :
    difficultySettings nearWinState.difficulty = some ⟨2000, 1000, 25, "Normal"⟩ ∧
    (collectDrop "d" nearWinState).score = 25 ∧
    (collectDrop "d" nearWinState).isPlaying = true ∧
    (collectDrop "d" nearWinState).modalWon = none := by
  refine ⟨rfl, ?_, ?_, ?_⟩ <;> rfl

/-- Claim C1 amended: a successful collectDrop that reaches the target score
leaves the session running and its modal untouched; the win is detected by
the next 50 ms game pulse, which transitions the session to Ended showing the
win modal. -/
theorem collect_win_detected_at_next_pulse (s : GameState) (dropId : String)
    (l' : List Drop) (cfg : DifficultySetting) (pos : String → Int) (bottom : Int)
    (hplay : s.isPlaying = true) (hpause : s.isPaused = false)
    (hcfg : difficultySettings s.difficulty = some cfg)
    (hcol : collectFirst dropId s.drops = some l')
    (hwin : cfg.targetScore ≤ s.score + 1) :
    (collectDrop dropId s).isPlaying = true ∧
    (collectDrop dropId s).modalWon = s.modalWon ∧
    (gamePulse pos bottom (collectDrop dropId s)).isPlaying = false ∧
    (gamePulse pos bottom (collectDrop dropId s)).modalWon = some true := by
  have htp : (collectDrop dropId s).isPlaying = true := by
    rw [collectDrop_isPlaying, hplay]
  have htpa : (collectDrop dropId s).isPaused = false := by
    rw [collectDrop_isPaused, hpause]
  have hts : (collectDrop dropId s).score = s.score + 1 := by
    rw [collectDrop_of_some dropId s l' hcol]
  have hud : (updateDrops pos bottom (collectDrop dropId s)).difficulty = s.difficulty := by
    rw [updateDrops_difficulty, collectDrop_difficulty]
  have hcw : checkWinCondition (updateDrops pos bottom (collectDrop dropId s)) =
      endGame true (updateDrops pos bottom (collectDrop dropId s)) := by
    apply checkWinCondition_of_win
    · rw [hud]
      exact hcfg
    · rw [updateDrops_score, hts]
      exact hwin
  have hgp : gamePulse pos bottom (collectDrop dropId s) =
      endGame true (updateDrops pos bottom (collectDrop dropId s)) := by
    unfold gamePulse
    rw [htpa, htp, hcw]
    rfl
  exact ⟨htp, collectDrop_modalWon dropId s, by rw [hgp]; rfl, by rw [hgp]; rfl⟩

/-- Witness for C1's amended theorem on the concrete near-win state. -/
theorem collect_win_detected_at_next_pulse_witness :
    (collectDrop "d" nearWinState).isPlaying = true ∧
    (collectDrop "d" nearWinState).modalWon = nearWinState.modalWon ∧
    (gamePulse (fun _ => 0) 500 (collectDrop "d" nearWinState)).isPlaying = false ∧
    (gamePulse (fun _ => 0) 500 (collectDrop "d" nearWinState)).modalWon = some true :=
  collect_win_detected_at_next_pulse nearWinState "d" [{ id := "d", collected := true }]
    ⟨2000, 1000, 25, "Normal"⟩ (fun _ => 0) 500 rfl rfl rfl (by decide) (by decide)

/-- Claim C2 counterexample: drop removal consults only the rendered position.
With normal difficulty (fall duration 2000 ms), a drop spawned at time 0 and
checked at time 10000 — elapsed 10000 ≥ 2000 — stays in the live set when its
rendered top (0) is above the bottom (500); the same drop is removed when its
rendered top (600) passes the bottom, irrespective of any elapsed time. -/
theorem expiry_not_elapsed_based_cex :
    2000 ≤ (10000 : Nat) - 0 ∧
    difficultySettings "normal" = some ⟨2000, 1000, 25, "Normal"⟩ ∧
    (updateDrops (fun _ => 0) 500 oneDropState).drops = [{ id := "d", collected := false }] ∧
    (updateDrops (fun _ => 600) 500 oneDropState).drops = [] := by
  refine ⟨by norm_num, rfl, rfl, rfl⟩

/-- Claim C2 amended: the expiry step keeps a drop exactly when it is
uncollected and its rendered top has not passed the game-area bottom; removal
is decided by rendered position, elapsed time since spawn is never consulted,
and no expired flag is stored on drops. -/
theorem updateDrops_position_iff (pos : String → Int) (bottom : Int)
    (s : GameState) (d : Drop) :
    d ∈ (updateDrops pos bottom s).drops ↔
      d ∈ s.drops ∧ d.collected = false ∧ pos d.id ≤ bottom := by
  simp [updateDrops, List.mem_filter, and_assoc, Bool.not_eq_true']

/-! Trace lemmas: pausing. -/

theorem runSteps_paused_freezes (ops : List Op) :
    ∀ s : GameState, s.isPaused = true → (∀ op ∈ ops, op.isUserCtl = false) →
      (runSteps ops s).gameTime = s.gameTime ∧ (runSteps ops s).isPaused = true := by
  induction ops with
  | nil => intro s h _; exact ⟨rfl, h⟩
  | cons op ops ih =>
    intro s hp hops
    have hop : op.isUserCtl = false := hops op (List.mem_cons_self op ops)
    have hstep : (step op s).gameTime = s.gameTime ∧ (step op s).isPaused = true := by
      cases op with
      | start => simp [Op.isUserCtl] at hop
      | toggle => simp [Op.isUserCtl] at hop
      | collect id =>
        exact ⟨collectDrop_gameTime id s, by rw [show (step (Op.collect id) s).isPaused =
          s.isPaused from collectDrop_isPaused id s, hp]⟩
      | spawnP id => constructor <;> simp [step, spawnPulse, hp]
      | pulse pos bottom => constructor <;> simp [step, gamePulse, hp]
      | tick => constructor <;> simp [step, timerTick, hp]
      | cleanup id => exact ⟨rfl, hp⟩
    have hrest := ih (step op s) hstep.2 fun o ho => hops o (List.mem_cons_of_mem op ho)
    refine ⟨?_, hrest.2⟩
    show (runSteps ops (step op s)).gameTime = s.gameTime
    rw [hrest.1, hstep.1]

/-- Claim C9: while the session is paused, no internally scheduled event
(timer tick, game pulse, spawn pulse, drop click, deferred cleanup) changes
gameTime, so the counter has the same value at resume as it had at pause;
togglePause itself preserves gameTime, and the first timer tick after
resuming advances the counter from exactly that frozen value. -/
theorem paused_freezes_gameTime (ops : List Op) (s : GameState)
    (hplay : s.isPlaying = true) (hp : s.isPaused = true)
    (hops : ∀ op ∈ ops, op.isUserCtl = false) :
    (runSteps ops s).gameTime = s.gameTime ∧
    (togglePause s).gameTime = s.gameTime ∧
    (timerTick (togglePause s)).gameTime = s.gameTime + 1 := by
  refine ⟨(runSteps_paused_freezes ops s hp hops).1, ?_, ?_⟩
  · simp [togglePause, hplay]
  · simp [togglePause, timerTick, hplay, hp]

/-- A paused mid-game state used by the C9 witness. -/
def pausedState : GameState :=
  { isPlaying := true, isPaused := true, score := 3, gameTime := 11,
    difficulty := "easy", drops := [{ id := "p", collected := false }],
    achievedMilestones := [], modalWon := none }

/-- Witness for C9: a concrete run of internal events over a paused state. -/
theorem paused_freezes_gameTime_witness :
    (runSteps [Op.tick, Op.pulse (fun _ => 600) 500, Op.spawnP "q", Op.collect "p",
        Op.cleanup "p", Op.tick] pausedState).gameTime = pausedState.gameTime ∧
    (togglePause pausedState).gameTime = pausedState.gameTime ∧
    (timerTick (togglePause pausedState)).gameTime = pausedState.gameTime + 1 :=
  paused_freezes_gameTime _ pausedState rfl rfl (by
    intro op hop
    fin_cases hop <;> rfl)

/-! Lemmas for the ending behaviour of each operation. -/

theorem startGame_of_playing (s : GameState) (h : s.isPlaying = true) :
    startGame s = s := by
  unfold startGame startGameT
  rw [if_pos h]

theorem startGame_modalWon (s : GameState) : (startGame s).modalWon = s.modalWon := by
  unfold startGame startGameT
  by_cases h : s.isPlaying = true
  · rw [if_pos h]
  · rw [if_neg h]
    dsimp only
    cases hd : difficultySettings (resetGame s).difficulty <;> simp [hd, resetGame]

theorem togglePause_isPlaying (s : GameState) : (togglePause s).isPlaying = s.isPlaying := by
  unfold togglePause
  split <;> rfl

theorem togglePause_modalWon (s : GameState) : (togglePause s).modalWon = s.modalWon := by
  unfold togglePause
  split <;> rfl

theorem togglePause_score (s : GameState) : (togglePause s).score = s.score := by
  unfold togglePause
  split <;> rfl

theorem togglePause_drops (s : GameState) : (togglePause s).drops = s.drops := by
  unfold togglePause
  split <;> rfl

theorem spawnPulse_isPlaying (id : String) (s : GameState) :
    (spawnPulse id s).isPlaying = s.isPlaying := by
  unfold spawnPulse spawnDrop
  split <;> rfl

theorem spawnPulse_modalWon (id : String) (s : GameState) :
    (spawnPulse id s).modalWon = s.modalWon := by
  unfold spawnPulse spawnDrop
  split <;> rfl

theorem timerTick_isPlaying (s : GameState) : (timerTick s).isPlaying = s.isPlaying := by
  unfold timerTick
  split <;> rfl

theorem timerTick_modalWon (s : GameState) : (timerTick s).modalWon = s.modalWon := by
  unfold timerTick
  split <;> rfl

theorem timerTick_score (s : GameState) : (timerTick s).score = s.score := by
  unfold timerTick
  split <;> rfl

theorem timerTick_drops (s : GameState) : (timerTick s).drops = s.drops := by
  unfold timerTick
  split <;> rfl

/-- A game pulse either ends the session through endGame(true) on the updated
drops, or leaves isPlaying and modalWon untouched. -/
theorem gamePulse_cases (pos : String → Int) (bottom : Int) (s : GameState) :
    gamePulse pos bottom s = endGame true (updateDrops pos bottom s) ∨
    (gamePulse pos bottom s).isPlaying = s.isPlaying ∧
      (gamePulse pos bottom s).modalWon = s.modalWon := by
  unfold gamePulse
  by_cases hg : (!s.isPaused && s.isPlaying) = true
  · rw [if_pos hg]
    unfold checkWinCondition
    cases hd : difficultySettings (updateDrops pos bottom s).difficulty with
    | none => right; exact ⟨rfl, rfl⟩
    | some cfg =>
      dsimp only
      by_cases hw : cfg.targetScore ≤ (updateDrops pos bottom s).score
      · left
        rw [if_pos hw]
      · right
        rw [if_neg hw]
        exact ⟨rfl, rfl⟩
  · rw [if_neg hg]
    right
    exact ⟨rfl, rfl⟩

/-- Claim C10: the only internally triggered transition out of playing is the
win path.  (1) Any event that flips isPlaying from true to false leaves the
win modal (won = true) shown; (2) for a running, unpaused session with a valid
difficulty, the periodic game pulse ends the session exactly when
score >= targetScore; (3) no event ever puts the lose modal (won = false) up:
there is no time limit or lose condition. -/
theorem only_win_path_ends :
    (∀ (op : Op) (s : GameState), s.isPlaying = true → (step op s).isPlaying = false →
        (step op s).modalWon = some true) ∧
    (∀ (s : GameState) (cfg : DifficultySetting) (pos : String → Int) (bottom : Int),
        s.isPlaying = true → s.isPaused = false →
        difficultySettings s.difficulty = some cfg →
        ((gamePulse pos bottom s).isPlaying = false ↔ cfg.targetScore ≤ s.score)) ∧
    (∀ (op : Op) (s : GameState), s.modalWon ≠ some false →
        (step op s).modalWon ≠ some false) := by
  refine ⟨?_, ?_, ?_⟩
  · intro op s hplay hend
    cases op with
    | start =>
      rw [show step Op.start s = startGame s from rfl, startGame_of_playing s hplay] at hend
      rw [hplay] at hend
      cases hend
    | toggle =>
      rw [show step Op.toggle s = togglePause s from rfl, togglePause_isPlaying, hplay] at hend
      cases hend
    | collect id =>
      rw [show step (Op.collect id) s = collectDrop id s from rfl,
        collectDrop_isPlaying, hplay] at hend
      cases hend
    | spawnP id =>
      rw [show step (Op.spawnP id) s = spawnPulse id s from rfl,
        spawnPulse_isPlaying, hplay] at hend
      cases hend
    | pulse pos bottom =>
      rcases gamePulse_cases pos bottom s with hcase | hcase
      · rw [show step (Op.pulse pos bottom) s = gamePulse pos bottom s from rfl, hcase]
        rfl
      · rw [show step (Op.pulse pos bottom) s = gamePulse pos bottom s from rfl,
          hcase.1, hplay] at hend
        cases hend
    | tick =>
      rw [show step Op.tick s = timerTick s from rfl, timerTick_isPlaying, hplay] at hend
      cases hend
    | cleanup id => rw [show (step (Op.cleanup id) s).isPlaying =
        s.isPlaying from rfl, hplay] at hend; cases hend
  · intro s cfg pos bottom hplay hpause hcfg
    have hud : difficultySettings (updateDrops pos bottom s).difficulty = some cfg := by
      rw [updateDrops_difficulty]
      exact hcfg
    by_cases hw : cfg.targetScore ≤ s.score
    · have hgp : gamePulse pos bottom s = endGame true (updateDrops pos bottom s) := by
        unfold gamePulse
        rw [hpause, hplay,
          checkWinCondition_of_win _ cfg hud (by rw [updateDrops_score]; exact hw)]
        rfl
      rw [hgp]
      exact ⟨fun _ => hw, fun _ => rfl⟩
    · have hgp : gamePulse pos bottom s = updateDrops pos bottom s := by
        unfold gamePulse
        rw [hpause, hplay,
          checkWinCondition_of_not_win _ cfg hud (by rw [updateDrops_score]; exact hw)]
        rfl
      rw [hgp]
      constructor
      · intro hend
        rw [show (updateDrops pos bottom s).isPlaying = s.isPlaying from rfl, hplay] at hend
        cases hend
      · intro hw'
        exact absurd hw' hw
  · intro op s hm
    cases op with
    | start => rw [show step Op.start s = startGame s from rfl, startGame_modalWon]; exact hm
    | toggle => rw [show step Op.toggle s = togglePause s from rfl, togglePause_modalWon]; exact hm
    | collect id =>
      rw [show step (Op.collect id) s = collectDrop id s from rfl, collectDrop_modalWon]
      exact hm
    | spawnP id =>
      rw [show step (Op.spawnP id) s = spawnPulse id s from rfl, spawnPulse_modalWon]
      exact hm
    | pulse pos bottom =>
      rcases gamePulse_cases pos bottom s with hcase | hcase
      · rw [show step (Op.pulse pos bottom) s = gamePulse pos bottom s from rfl, hcase]
        simp [endGame]
      · rw [show step (Op.pulse pos bottom) s = gamePulse pos bottom s from rfl, hcase.2]
        exact hm
    | tick => rw [show step Op.tick s = timerTick s from rfl, timerTick_modalWon]; exact hm
    | cleanup id => exact hm

/-- A running session that has already reached the normal target. -/
def winningState : GameState :=
  { isPlaying := true, isPaused := false, score := 25, gameTime := 8,
    difficulty := "normal", drops := [], achievedMilestones := [10, 20],
    modalWon := none }

/-- Witness for C10 at a concrete winning state and concrete events. -/
theorem only_win_path_ends_witness :
    (step (Op.pulse (fun _ => 0) 500) winningState).modalWon = some true ∧
    ((gamePulse (fun _ => 0) 500 winningState).isPlaying = false ↔
        (⟨2000, 1000, 25, "Normal"⟩ : DifficultySetting).targetScore ≤ winningState.score) ∧
    (step Op.tick winningState).modalWon ≠ some false :=
  ⟨only_win_path_ends.1 (Op.pulse (fun _ => 0) 500) winningState rfl rfl,
   only_win_path_ends.2.1 winningState ⟨2000, 1000, 25, "Normal"⟩ (fun _ => 0) 500 rfl rfl rfl,
   only_win_path_ends.2.2 Op.tick winningState (by decide)⟩

/-! The session invariant: score counts collections, outcomes exclusive. -/

theorem startGame_score_drops_of_not_playing (s : GameState) (h : ¬s.isPlaying = true) :
    (startGame s).score = 0 ∧ (startGame s).drops = [] := by
  unfold startGame startGameT
  rw [if_neg h]
  dsimp only
  cases hd : difficultySettings (resetGame s).difficulty <;> simp [hd, resetGame]

theorem removeFirst_sublist (id : String) :
    ∀ l : List Drop, List.Sublist (removeFirst id l) l := by
  intro l
  induction l with
  | nil => simp [removeFirst]
  | cons d rest ih =>
    by_cases hd : d.id = id
    · simp only [removeFirst, if_pos hd]
      exact List.sublist_cons_self d rest
    · simp only [removeFirst, if_neg hd]
      exact List.Sublist.cons₂ d ih

/-- The instrumented session invariant: the score counts exactly the
successful collects of the session, collected and expired ids are disjoint,
live uncollected drops are unresolved, and live ids are pairwise distinct. -/
def Inv (h : HState) : Prop :=
  h.real.score = h.collectedLog.length ∧
  (∀ x ∈ h.collectedLog, x ∉ h.expiredLog) ∧
  (∀ d ∈ h.real.drops, d.collected = false → d.id ∉ h.collectedLog ∧ d.id ∉ h.expiredLog) ∧
  (h.real.drops.map Drop.id).Nodup

theorem stepH_preserves_Inv (op : Op) (h : HState) (hI : Inv h)
    (hf : freshOk op h = true) : Inv (stepH op h) := by
  obtain ⟨hsc, hdisj, hlive, hnd⟩ := hI
  cases op with
  | start =>
    by_cases hp : h.real.isPlaying = true
    · have h1 : (stepH Op.start h).real = h.real := startGame_of_playing _ hp
      have h2 : (stepH Op.start h).collectedLog = h.collectedLog := by
        show (if h.real.isPlaying then h.collectedLog else []) = h.collectedLog
        rw [if_pos hp]
      have h3 : (stepH Op.start h).expiredLog = h.expiredLog := by
        show (if h.real.isPlaying then h.expiredLog else []) = h.expiredLog
        rw [if_pos hp]
      unfold Inv
      rw [h1, h2, h3]
      exact ⟨hsc, hdisj, hlive, hnd⟩
    · have h1 : (stepH Op.start h).real = startGame h.real := rfl
      have h2 : (stepH Op.start h).collectedLog = [] := by
        show (if h.real.isPlaying then h.collectedLog else []) = []
        rw [if_neg hp]
      have h3 : (stepH Op.start h).expiredLog = [] := by
        show (if h.real.isPlaying then h.expiredLog else []) = []
        rw [if_neg hp]
      unfold Inv
      rw [h1, h2, h3, (startGame_score_drops_of_not_playing h.real hp).1,
        (startGame_score_drops_of_not_playing h.real hp).2]
      exact ⟨rfl, by simp, by simp, by simp⟩
  | toggle =>
    have h1 : (stepH Op.toggle h).real = togglePause h.real := rfl
    have h2 : (stepH Op.toggle h).collectedLog = h.collectedLog := rfl
    have h3 : (stepH Op.toggle h).expiredLog = h.expiredLog := rfl
    unfold Inv
    rw [h1, h2, h3, togglePause_score, togglePause_drops]
    exact ⟨hsc, hdisj, hlive, hnd⟩
  | tick =>
    have h1 : (stepH Op.tick h).real = timerTick h.real := rfl
    have h2 : (stepH Op.tick h).collectedLog = h.collectedLog := rfl
    have h3 : (stepH Op.tick h).expiredLog = h.expiredLog := rfl
    unfold Inv
    rw [h1, h2, h3, timerTick_score, timerTick_drops]
    exact ⟨hsc, hdisj, hlive, hnd⟩
  | cleanup id =>
    have h1 : (stepH (Op.cleanup id) h).real = dropCleanup id h.real := rfl
    have h2 : (stepH (Op.cleanup id) h).collectedLog = h.collectedLog := rfl
    have h3 : (stepH (Op.cleanup id) h).expiredLog = h.expiredLog := rfl
    have hsub : List.Sublist (removeFirst id h.real.drops) h.real.drops :=
      removeFirst_sublist id _
    unfold Inv
    rw [h1, h2, h3]
    refine ⟨hsc, hdisj, ?_, ?_⟩
    · intro d hd hdc
      exact hlive d (hsub.subset hd) hdc
    · exact List.Nodup.sublist (hsub.map Drop.id) hnd
  | collect id =>
    have h1 : (stepH (Op.collect id) h).real = collectDrop id h.real := rfl
    have h3 : (stepH (Op.collect id) h).expiredLog = h.expiredLog := rfl
    cases hcol : collectFirst id h.real.drops with
    | none =>
      have h2 : (stepH (Op.collect id) h).collectedLog = h.collectedLog := by
        show (if (collectFirst id h.real.drops).isSome then h.collectedLog ++ [id]
          else h.collectedLog) = h.collectedLog
        rw [hcol]
        rfl
      unfold Inv
      rw [h1, h2, h3, collectDrop_of_none id h.real hcol]
      exact ⟨hsc, hdisj, hlive, hnd⟩
    | some l' =>
      have h2 : (stepH (Op.collect id) h).collectedLog = h.collectedLog ++ [id] := by
        show (if (collectFirst id h.real.drops).isSome then h.collectedLog ++ [id]
          else h.collectedLog) = h.collectedLog ++ [id]
        rw [hcol]
        rfl
      obtain ⟨d0, hd0mem, hd0id, hd0un⟩ :=
        collectFirst_exists_uncollected id h.real.drops l' hcol
      have hid_note : id ∉ h.expiredLog := by
        have hx := (hlive d0 hd0mem hd0un).2
        rwa [hd0id] at hx
      unfold Inv
      rw [h1, h2, h3, collectDrop_of_some id h.real l' hcol]
      refine ⟨?_, ?_, ?_, ?_⟩
      · show h.real.score + 1 = (h.collectedLog ++ [id]).length
        rw [hsc, List.length_append]
        rfl
      · intro x hx
        rcases List.mem_append.1 hx with hx' | hx'
        · exact hdisj x hx'
        · rw [List.mem_singleton.1 hx']
          exact hid_note
      · intro d hd hdc
        obtain ⟨hdl, hdne⟩ :=
          collectFirst_mem_uncollected id h.real.drops l' hnd hcol d hd hdc
        refine ⟨?_, (hlive d hdl hdc).2⟩
        intro hmem
        rcases List.mem_append.1 hmem with hx' | hx'
        · exact (hlive d hdl hdc).1 hx'
        · exact hdne (List.mem_singleton.1 hx')
      · show (l'.map Drop.id).Nodup
        rw [collectFirst_map_id id h.real.drops l' hcol]
        exact hnd
  | spawnP id =>
    have h1 : (stepH (Op.spawnP id) h).real = spawnPulse id h.real := rfl
    have h2 : (stepH (Op.spawnP id) h).collectedLog = h.collectedLog := rfl
    have h3 : (stepH (Op.spawnP id) h).expiredLog = h.expiredLog := rfl
    have hf1 : id ∉ h.real.drops.map Drop.id ∧ id ∉ h.collectedLog ∧ id ∉ h.expiredLog := by
      have hb := hf
      simp only [freshOk, Bool.and_eq_true, decide_eq_true_eq] at hb
      exact ⟨hb.1.1, hb.1.2, hb.2⟩
    by_cases hg : (!h.real.isPaused && h.real.isPlaying) = true
    · have hsp : spawnPulse id h.real = spawnDrop id h.real := by
        unfold spawnPulse
        rw [if_pos hg]
      unfold Inv
      rw [h1, h2, h3, hsp]
      refine ⟨hsc, hdisj, ?_, ?_⟩
      · intro d hd hdc
        rcases List.mem_append.1 hd with hd' | hd'
        · exact hlive d hd' hdc
        · rw [List.mem_singleton.1 hd']
          exact ⟨hf1.2.1, hf1.2.2⟩
      · show ((h.real.drops ++ [({ id := id, collected := false } : Drop)]).map Drop.id).Nodup
        rw [List.map_append]
        refine List.nodup_append.2 ⟨hnd, by simp, ?_⟩
        intro a ha hb
        rw [List.map_singleton, List.mem_singleton] at hb
        rw [hb] at ha
        exact hf1.1 ha
    · have hsp : spawnPulse id h.real = h.real := by
        unfold spawnPulse
        rw [if_neg hg]
      unfold Inv
      rw [h1, h2, h3, hsp]
      exact ⟨hsc, hdisj, hlive, hnd⟩
  | pulse pos bottom =>
    have h1 : (stepH (Op.pulse pos bottom) h).real = gamePulse pos bottom h.real := rfl
    have h2 : (stepH (Op.pulse pos bottom) h).collectedLog = h.collectedLog := rfl
    by_cases hg : (!h.real.isPaused && h.real.isPlaying) = true
    · have h3 : (stepH (Op.pulse pos bottom) h).expiredLog =
          h.expiredLog ++ (h.real.drops.filter
            fun d => !d.collected && decide (bottom < pos d.id)).map Drop.id := by
        show (if !h.real.isPaused && h.real.isPlaying then _ else _) = _
        rw [if_pos hg]
      have hgp : gamePulse pos bottom h.real =
          checkWinCondition (updateDrops pos bottom h.real) := by
        unfold gamePulse
        rw [if_pos hg]
      have hsc' : (gamePulse pos bottom h.real).score = h.real.score := by
        rw [hgp, checkWinCondition_score, updateDrops_score]
      have hdr : (gamePulse pos bottom h.real).drops =
          h.real.drops.filter (fun d => !d.collected && decide (pos d.id ≤ bottom)) := by
        rw [hgp, checkWinCondition_drops]
        rfl
      unfold Inv
      rw [h1, h2, h3, hsc', hdr]
      refine ⟨hsc, ?_, ?_, ?_⟩
      · intro x hx hmem
        rcases List.mem_append.1 hmem with hx' | hx'
        · exact hdisj x hx hx'
        · obtain ⟨e, he, heid⟩ := List.mem_map.1 hx'
          have heMem := (List.mem_filter.1 he).1
          have heUn : e.collected = false := by
            have hb := (List.mem_filter.1 he).2
            simp only [Bool.and_eq_true, Bool.not_eq_true', decide_eq_true_eq] at hb
            exact hb.1
          have hnc := (hlive e heMem heUn).1
          rw [heid] at hnc
          exact hnc hx
      · intro d hd hdc
        have hdMem := (List.mem_filter.1 hd).1
        refine ⟨(hlive d hdMem hdc).1, ?_⟩
        intro hmem
        rcases List.mem_append.1 hmem with hx' | hx'
        · exact (hlive d hdMem hdc).2 hx'
        · obtain ⟨e, he, heid⟩ := List.mem_map.1 hx'
          have heMem := (List.mem_filter.1 he).1
          have heq : e = d := List.inj_on_of_nodup_map hnd heMem hdMem heid
          have hq := (List.mem_filter.1 he).2
          have hp' := (List.mem_filter.1 hd).2
          rw [heq] at hq
          have hq2 : bottom < pos d.id := by
            simp only [Bool.and_eq_true, decide_eq_true_eq] at hq
            exact hq.2
          have hp2 : pos d.id ≤ bottom := by
            simp only [Bool.and_eq_true, decide_eq_true_eq] at hp'
            exact hp'.2
          exact absurd hp2 (not_le.2 hq2)
      · exact List.Nodup.sublist ((List.filter_sublist _).map Drop.id) hnd
    · have h3 : (stepH (Op.pulse pos bottom) h).expiredLog = h.expiredLog := by
        show (if !h.real.isPaused && h.real.isPlaying then _ else _) = _
        rw [if_neg hg]
      have hgp : gamePulse pos bottom h.real = h.real := by
        unfold gamePulse
        rw [if_neg hg]
      unfold Inv
      rw [h1, h2, h3, hgp]
      exact ⟨hsc, hdisj, hlive, hnd⟩

theorem runH_Inv (ops : List Op) :
    ∀ h : HState, Inv h → validTrace h ops = true → Inv (runH ops h) := by
  induction ops with
  | nil => intro h hI _; exact hI
  | cons op ops ih =>
    intro h hI hv
    simp only [validTrace, Bool.and_eq_true] at hv
    exact ih (stepH op h) (stepH_preserves_Inv op h hI hv.1) hv.2

/-- Claim C4: over every valid event sequence from a fresh game object, the
score equals the number of drops collected in the session, and no drop id is
both collected and expired — the two outcomes are mutually exclusive. -/
theorem score_counts_collections_outcomes_exclusive (ops : List Op)
    (hv : validTrace initH ops = true) :
    (runH ops initH).real.score = (runH ops initH).collectedLog.length ∧
    ∀ x ∈ (runH ops initH).collectedLog, x ∉ (runH ops initH).expiredLog := by
  have hI := runH_Inv ops initH
    ⟨rfl, by simp [initH], by simp [initH, initState], by simp [initH, initState]⟩ hv
  exact ⟨hI.1, hI.2.1⟩

/-- Concrete event trace for the C4 witness: start, spawn two drops, collect
one, let the other fall past the bottom, cleanup, tick. -/
def traceC4 : List Op :=
  [Op.start, Op.spawnP "a", Op.collect "a", Op.spawnP "b",
   Op.pulse (fun _ => 600) 500, Op.cleanup "a", Op.tick]

/-- Witness for C4 on the concrete trace. -/
theorem score_counts_collections_witness :
    (runH traceC4 initH).real.score = (runH traceC4 initH).collectedLog.length ∧
    ∀ x ∈ (runH traceC4 initH).collectedLog, x ∉ (runH traceC4 initH).expiredLog :=
  score_counts_collections_outcomes_exclusive traceC4 (by rfl)

end CharityWater
